import Mathlib

/-!
Verification development for the daily accountability agent
(models `app/utils/time_utils.py`, `app/models/*.py`,
`app/services/github_service.py`, `app/services/verification_service.py`
and `app/api/replies.py`).

Modelling conventions:
* instants are minutes since the epoch, UTC, as `Int`;
* calendar dates are day indices (`Int`), day `d` covering UTC minutes
  `[d*1440, d*1440+1439]`;
* timezones are fixed UTC offsets in minutes (DST is out of scope for the
  claims under study); the IANA database is modelled by the finite table
  `tzdb` containing the zones the development mentions;
* fallible calls return `Except`; a caught exception is an `Except.error`
  consumed by the matching handler.
-/

/-- A timezone: an IANA name with a fixed UTC offset in minutes. -/
structure Timezone where
  name : String
  offsetMinutes : Int
deriving DecidableEq, Repr

/-- The slice of the IANA timezone database used by this development
(pytz in the source). -/
def tzdb : List Timezone :=
  [⟨"UTC", 0⟩, ⟨"America/New_York", -300⟩, ⟨"Africa/Douala", 60⟩]

/-- Model of `time_utils.get_timezone`: resolve a timezone name, defaulting to
the settings timezone when none is given, and falling back to UTC (with a
logged error) when the name is unknown. -/
def get_timezone (settingsTz : String) (tz_name : Option String) : Timezone :=
  let n := tz_name.getD settingsTz
  match tzdb.find? (fun tz => tz.name == n) with
  | some tz => tz
  | none => ⟨"UTC", 0⟩

/-- Model of `time_utils.get_current_date`: the civil date at instant `now`
in the resolved timezone. -/
def get_current_date (settingsTz : String) (now : Int) (tz_name : Option String) : Int :=
  (now + (get_timezone settingsTz tz_name).offsetMinutes).fdiv 1440

/-- Model of `time_utils.get_start_of_day`: local midnight of `target_date`
in the resolved timezone, as a UTC instant. -/
def get_start_of_day (settingsTz : String) (tz_name : Option String) (target_date : Int) : Int :=
  target_date * 1440 - (get_timezone settingsTz tz_name).offsetMinutes

/-- Model of `time_utils.get_end_of_day`: end of `target_date` (23:59, at the
minute granularity of this model) in the resolved timezone, as a UTC instant. -/
def get_end_of_day (settingsTz : String) (tz_name : Option String) (target_date : Int) : Int :=
  target_date * 1440 + 1439 - (get_timezone settingsTz tz_name).offsetMinutes

/-- The civil date (UTC) of an instant, Python `datetime.date()` on an
aware UTC datetime. -/
def dateOf (t : Int) : Int := t.fdiv 1440

/-- Model of the `User` row (`app/models/user.py`). The timezone column is
named `time_zone`. -/
structure User where
  id : Nat
  email : String
  github_username : String
  github_token : String
  is_active : Bool
  time_zone : String
deriving DecidableEq, Repr

/-- Model of `User.get_by_email`: first row whose email matches; the query
does not restrict to active users. -/
def User.get_by_email (users : List User) (email : String) : Option User :=
  users.find? (fun u => u.email == email)

/-- Model of `User.get_active_users`. -/
def User.get_active_users (users : List User) : List User :=
  users.filter (fun u => u.is_active)

/-- Dynamic attribute lookup on a `User` instance, for the string-valued
columns. Python raises `AttributeError` (here `none`) for a name that is not
a defined attribute; the model class defines `time_zone`, not `timezone`. -/
def User.getattr (u : User) (name : String) : Option String :=
  if name == "email" then some u.email
  else if name == "github_username" then some u.github_username
  else if name == "github_token" then some u.github_token
  else if name == "time_zone" then some u.time_zone
  else none

/-! GitHub service (`app/services/github_service.py`). A repository is
modelled together with the behaviour of the external API for it: the raw
item lists the API would serve, plus, per item category, an optional
`GithubException` raised by that fetch (the whole per-repository fetch is
modelled atomically: it either raises or yields its list). -/

/-- A raw commit as served by the API. `author_login` is the GitHub login the
server-side `author=` filter matches; `author_name` is the git author name
stored in the item (`commit.commit.author.name`). -/
structure CommitRaw where
  sha : String
  message : String
  author_login : String
  author_name : String
  date : Int
  url : String
deriving DecidableEq, Repr

/-- A raw pull request as served by the API. -/
structure PRRaw where
  number : Nat
  title : String
  state : String
  created_at : Int
  updated_at : Int
  user_login : String
  url : String
deriving DecidableEq, Repr

/-- A raw issue as served by the API; `is_pr` marks pull requests that the
issues endpoint reports as issues. -/
structure IssueRaw where
  number : Nat
  title : String
  state : String
  created_at : Int
  updated_at : Int
  user_login : String
  url : String
  is_pr : Bool
deriving DecidableEq, Repr

/-- One repository together with the API behaviour of its three fetches. -/
structure Repo where
  full_name : String
  commits : List CommitRaw
  commits_error : Option String
  prs_open : List PRRaw
  prs_closed : List PRRaw
  prs_error : Option String
  issues_open : List IssueRaw
  issues_closed : List IssueRaw
  issues_error : Option String
deriving DecidableEq, Repr

/-- The commit record built at `github_service.py:133`. -/
structure CommitItem where
  sha : String
  message : String
  repository : String
  date : Int
  url : String
  author : String
deriving DecidableEq, Repr

/-- The pull-request record built at `github_service.py:194`. -/
structure PRItem where
  number : Nat
  title : String
  repository : String
  state : String
  created_at : Int
  updated_at : Int
  url : String
  author : String
deriving DecidableEq, Repr

/-- The issue record built at `github_service.py:265`. -/
structure IssueItem where
  number : Nat
  title : String
  repository : String
  state : String
  created_at : Int
  updated_at : Int
  url : String
  author : String
deriving DecidableEq, Repr

def mkCommitItem (repoName : String) (c : CommitRaw) : CommitItem :=
  ⟨c.sha, c.message, repoName, c.date, c.url, c.author_name⟩

def mkPRItem (repoName : String) (p : PRRaw) : PRItem :=
  ⟨p.number, p.title, repoName, p.state, p.created_at, p.updated_at, p.url, p.user_login⟩

def mkIssueItem (repoName : String) (i : IssueRaw) : IssueItem :=
  ⟨i.number, i.title, repoName, i.state, i.created_at, i.updated_at, i.url, i.user_login⟩

/-- The `repo.get_commits(author=username, since=start, until=end)` call:
the API raises the configured exception or serves the commits by that author
inside the window (server-side filtering). -/
def fetchCommits (username : String) (start_dt end_dt : Int) (repo : Repo) :
    Except String (List CommitRaw) :=
  match repo.commits_error with
  | some e => .error e
  | none => .ok (repo.commits.filter
      (fun c => c.author_login == username && start_dt ≤ c.date && c.date ≤ end_dt))

/-- The `repo.get_pulls(state=...)` calls for both states: raises the
configured exception or serves both lists unfiltered (filtering is done
client-side). -/
def fetchPRs (repo : Repo) : Except String (List PRRaw × List PRRaw) :=
  match repo.prs_error with
  | some e => .error e
  | none => .ok (repo.prs_open, repo.prs_closed)

/-- The `repo.get_issues(state=..., creator=username)` calls for both states:
raises the configured exception or serves both lists restricted server-side
to the creator. -/
def fetchIssues (username : String) (repo : Repo) :
    Except String (List IssueRaw × List IssueRaw) :=
  match repo.issues_error with
  | some e => .error e
  | none => .ok (repo.issues_open.filter (fun i => i.user_login == username),
                 repo.issues_closed.filter (fun i => i.user_login == username))

/-- The inner loop of `get_pull_requests_for_date` over one state list
(`github_service.py:187-209`): keep PRs by the user created or updated on the
target date, and stop scanning once an item was last updated before the
window start (the current item is still considered first, then the loop
breaks). -/
def scanPRs (target_date start_dt : Int) (username repoName : String) :
    List PRRaw → List PRItem
  | [] => []
  | pr :: rest =>
    let keep := pr.user_login == username &&
      (dateOf pr.created_at == target_date || dateOf pr.updated_at == target_date)
    let here := if keep then [mkPRItem repoName pr] else []
    if pr.updated_at < start_dt then here
    else here ++ scanPRs target_date start_dt username repoName rest

/-- The inner loop of `get_issues_for_date` over one state list
(`github_service.py:255-280`): skip PRs misreported as issues (the skip also
bypasses the early-stop check), keep issues created or updated on the target
date, and stop once an item was last updated before the window start. -/
def scanIssues (target_date start_dt : Int) (repoName : String) :
    List IssueRaw → List IssueItem
  | [] => []
  | issue :: rest =>
    if issue.is_pr then scanIssues target_date start_dt repoName rest
    else
      let keep := dateOf issue.created_at == target_date ||
        dateOf issue.updated_at == target_date
      let here := if keep then [mkIssueItem repoName issue] else []
      if issue.updated_at < start_dt then here
      else here ++ scanIssues target_date start_dt repoName rest

/-- Model of `GitHubService.get_commits_for_date`: the day window comes from
`get_start_of_day` and `get_end_of_day` called without a timezone argument,
hence in the settings timezone; a per-repository `GithubException` is logged
and the loop continues with the next repository. -/
def get_commits_for_date (settingsTz : String) (target_date : Int)
    (username : String) (repos : List Repo) : List CommitItem :=
  let start_dt := get_start_of_day settingsTz none target_date
  let end_dt := get_end_of_day settingsTz none target_date
  repos.foldl (fun commits_data repo =>
    match fetchCommits username start_dt end_dt repo with
    | .error _ => commits_data
    | .ok commits => commits_data ++ commits.map (mkCommitItem repo.full_name)) []

/-- Model of `GitHubService.get_pull_requests_for_date`: open then closed
PRs per repository, filtered client-side by author and created/updated date;
a per-repository exception skips that repository only. -/
def get_pull_requests_for_date (settingsTz : String) (target_date : Int)
    (username : String) (repos : List Repo) : List PRItem :=
  let start_dt := get_start_of_day settingsTz none target_date
  repos.foldl (fun prs_data repo =>
    match fetchPRs repo with
    | .error _ => prs_data
    | .ok (op, cl) => prs_data ++ scanPRs target_date start_dt username repo.full_name op
        ++ scanPRs target_date start_dt username repo.full_name cl) []

/-- Model of `GitHubService.get_issues_for_date`: open then closed issues per
repository (creator filter is server-side), with the PR-skip and date filter;
a per-repository exception skips that repository only. -/
def get_issues_for_date (settingsTz : String) (target_date : Int)
    (username : String) (repos : List Repo) : List IssueItem :=
  let start_dt := get_start_of_day settingsTz none target_date
  repos.foldl (fun issues_data repo =>
    match fetchIssues username repo with
    | .error _ => issues_data
    | .ok (op, cl) => issues_data ++ scanIssues target_date start_dt repo.full_name op
        ++ scanIssues target_date start_dt repo.full_name cl) []

/-- Insertion sort on strings, for the `sorted(list(repos))` call. -/
def insertSorted (s : String) : List String → List String
  | [] => [s]
  | t :: ts => if s ≤ t then s :: t :: ts else t :: insertSorted s ts

def sortStrings (l : List String) : List String := l.foldr insertSorted []

/-- Python `sorted(list(set(l)))`: deduplicate, then sort. -/
def sortedDedup (l : List String) : List String := sortStrings l.dedup

/-- The activity snapshot assembled by `get_daily_activity`
(`github_service.py:319-329`). The `date` field holds the target date. -/
structure ActivityData where
  date : Int
  commits : List CommitItem
  commits_count : Nat
  pull_requests : List PRItem
  prs_count : Nat
  issues : List IssueItem
  issues_count : Nat
  repositories : List String
  total_activity : Nat
deriving DecidableEq, Repr

/-- Model of `GitHubService.get_daily_activity`: run the three per-category
aggregations, derive the deduplicated sorted repository set from every item
touched, the counts as list lengths, and the total as their sum. -/
def get_daily_activity (settingsTz : String) (repos : List Repo)
    (target_date : Int) (username : String) : ActivityData :=
  let commits := get_commits_for_date settingsTz target_date username repos
  let prs := get_pull_requests_for_date settingsTz target_date username repos
  let issues := get_issues_for_date settingsTz target_date username repos
  let repoNames := commits.map (fun c => c.repository)
    ++ prs.map (fun p => p.repository) ++ issues.map (fun i => i.repository)
  { date := target_date
    commits := commits
    commits_count := commits.length
    pull_requests := prs
    prs_count := prs.length
    issues := issues
    issues_count := issues.length
    repositories := sortedDedup repoNames
    total_activity := commits.length + prs.length + issues.length }

/-! Daily Record store (`app/models/daily_log.py`). The table is a list of
rows; the uniqueness constraint `uix_user_log_date` on (user_id, log_date)
is enforced at commit time. -/

/-- Model of the `DailyLog` row. Counts default to 0, the other lifecycle
fields are nullable. -/
structure DailyLog where
  id : Nat
  user_id : Nat
  log_date : Int
  checkin_sent_at : Option Int
  user_response : Option String
  user_responded_at : Option Int
  verification_completed_at : Option Int
  commits_count : Nat
  prs_count : Nat
  issues_count : Nat
  verification_passed : Option Bool
  verification_details : Option ActivityData
  summary_sent_at : Option Int
deriving DecidableEq, Repr

/-- A freshly constructed row `DailyLog(user_id=..., log_date=...)` with the
column defaults. -/
def newLog (id user_id : Nat) (log_date : Int) : DailyLog :=
  { id := id, user_id := user_id, log_date := log_date,
    checkin_sent_at := none, user_response := none, user_responded_at := none,
    verification_completed_at := none, commits_count := 0, prs_count := 0,
    issues_count := 0, verification_passed := none, verification_details := none,
    summary_sent_at := none }

/-- The key predicate of the (user_id, log_date) queries. -/
def keyMatch (user_id : Nat) (log_date : Int) (l : DailyLog) : Bool :=
  l.user_id == user_id && l.log_date == log_date

/-- The query `filter(user_id == ..., log_date == ...).first()`. -/
def findLog (db : List DailyLog) (user_id : Nat) (log_date : Int) : Option DailyLog :=
  db.find? (keyMatch user_id log_date)

/-- Committing a mutation of one row: the row with the same primary key is
replaced. -/
def updateLog (db : List DailyLog) (l : DailyLog) : List DailyLog :=
  db.map (fun r => if r.id == l.id then l else r)

/-- The `IntegrityError` raised when the commit of an insert violates
`uix_user_log_date`. -/
structure UniqueViolation where
  user_id : Nat
  log_date : Int
deriving DecidableEq, Repr

/-- Model of `DailyLog.get_or_create`. `dbRead` is the store as seen by the
initial query; `dbCommit` is the authoritative store at commit time, which in
a concurrent overlap may already contain a row for the same key inserted by
another caller. The function returns the row found by the read, or inserts a
new row committed against `dbCommit`; a key already present at commit time
violates `uix_user_log_date` and the resulting `IntegrityError` propagates
(the source has no handler around `db.add` and `db.commit`). -/
def DailyLog.get_or_create (dbRead dbCommit : List DailyLog) (nextId user_id : Nat)
    (log_date : Int) : Except UniqueViolation (DailyLog × List DailyLog) :=
  match findLog dbRead user_id log_date with
  | some log => .ok (log, dbCommit)
  | none =>
    if (findLog dbCommit user_id log_date).isSome then
      .error ⟨user_id, log_date⟩
    else
      let log := newLog nextId user_id log_date
      .ok (log, dbCommit ++ [log])

/-! Verification service (`app/services/verification_service.py`). The
GitHub client obtained from the token is modelled by a `GithubEnv`: the
outcome of `test_connection` plus the repositories the API serves. -/

/-- The external GitHub API behaviour for one verification run. -/
structure GithubEnv where
  connection_ok : Bool
  repos : List Repo
deriving DecidableEq, Repr

/-- The result dictionary of `verify_user_day`. Fields absent from the error
dictionary built by `_create_error_result` are `none`. -/
structure VerifyResult where
  success : Bool
  passed : Bool
  date : Option Int
  commits_count : Nat
  prs_count : Nat
  issues_count : Nat
  repositories : Option (List String)
  total_activity : Nat
  user_response : Option String
  details : Option ActivityData
  error : Option String
deriving DecidableEq, Repr

/-- Model of `VerificationService._create_error_result`. -/
def create_error_result (msg : String) : VerifyResult :=
  { success := false, passed := false, date := none, commits_count := 0,
    prs_count := 0, issues_count := 0, repositories := none, total_activity := 0,
    user_response := none, details := none, error := some msg }

/-- Model of `VerificationService.verify_user_day` for an explicitly given
target date (every caller in scope passes one; the defaulting path at
`verification_service.py:60-61` is the separate `user.timezone` attribute
access studied with the reply handler). Behaviour: get-or-create the record;
on connection failure return an error result without touching the
verification fields; otherwise aggregate activity, write counts, detail
snapshot, completion timestamp and the pass flag onto the record, and commit
them in one transaction. A caught exception rolls the transaction back and
yields an error result with the store unchanged. -/
def verify_user_day (settingsTz : String) (now : Int) (gh : GithubEnv)
    (db : List DailyLog) (nextId : Nat) (user : User) (target_date : Int)
    (min_commits : Nat) : VerifyResult × List DailyLog :=
  match DailyLog.get_or_create db db nextId user.id target_date with
  | .error _ => (create_error_result "IntegrityError", db)
  | .ok (daily_log, db1) =>
    if gh.connection_ok = false then
      (create_error_result "GitHub connection failed. Please check your token.", db1)
    else
      let activity := get_daily_activity settingsTz gh.repos target_date user.github_username
      let passed := decide (min_commits ≤ activity.total_activity)
      let log2 := { daily_log with
        commits_count := activity.commits_count
        prs_count := activity.prs_count
        issues_count := activity.issues_count
        verification_details := some activity
        verification_completed_at := some now
        verification_passed := some passed }
      let db2 := updateLog db1 log2
      ({ success := true, passed := passed, date := some target_date,
         commits_count := activity.commits_count, prs_count := activity.prs_count,
         issues_count := activity.issues_count,
         repositories := some activity.repositories,
         total_activity := activity.total_activity,
         user_response := daily_log.user_response,
         details := some activity, error := none }, db2)

/-- One entry of the batch result list (`verification_service.py:225-237`). -/
structure UserResult where
  user_email : String
  success : Bool
  error : Option String
deriving DecidableEq, Repr

/-- The aggregate counters of `verify_all_users`. -/
structure BatchResults where
  total_users : Nat
  successful : Nat
  failed : Nat
  passed : Nat
  not_passed : Nat
  user_results : List UserResult
deriving DecidableEq, Repr

/-- The body of the `for user in users` loop of `verify_all_users`
(`verification_service.py:209-237`): call `verify_and_notify` (modelled by
`step`, an `Except.error` being an exception escaping it); on success count
it successful and classify pass or not-pass from the stored record (the
bookkeeping read `DailyLog.get_by_date(...).verification_passed`, modelled
by `lookupPassed`, pure bookkeeping modelled as total); on a `False` return
or on an exception count it failed; always append the per-user entry. -/
def verify_all_users_step (step : User → Except String Bool)
    (lookupPassed : User → Option Bool) (results : BatchResults)
    (user : User) : BatchResults :=
  match step user with
  | .ok success =>
    if success then
      let results := { results with successful := results.successful + 1 }
      let results :=
        match lookupPassed user with
        | some true => { results with passed := results.passed + 1 }
        | _ => { results with not_passed := results.not_passed + 1 }
      { results with user_results :=
          results.user_results ++ [⟨user.email, true, none⟩] }
    else
      { results with
        failed := results.failed + 1
        user_results := results.user_results ++ [⟨user.email, false, none⟩] }
  | .error e =>
    { results with
      failed := results.failed + 1
      user_results := results.user_results ++ [⟨user.email, false, some e⟩] }

/-- Model of `VerificationService.verify_all_users`: iterate the loop body
over every active user, starting from zeroed counters; a per-user exception
is caught, counted as failed, recorded with its message, and the loop
continues with the remaining users. -/
def verify_all_users (step : User → Except String Bool)
    (lookupPassed : User → Option Bool) (users : List User) : BatchResults :=
  users.foldl (verify_all_users_step step lookupPassed)
    { total_users := users.length, successful := 0, failed := 0, passed := 0,
      not_passed := 0, user_results := [] }

/-! Reply ingestion (`app/api/replies.py`). -/

/-- The fields the handler extracts from the SendGrid webhook payload. -/
structure ReplyPayload where
  from_email : Option String
  to_email : Option String
  subject : String
  text : String
  html : String
deriving DecidableEq, Repr

/-- The HTTP failure modes of the handler: 400 for invalid input, 404 for an
unknown sender, 500 for an exception reaching the generic handler. -/
inductive ReplyError where
  | badRequest (detail : String)
  | notFound (detail : String)
  | internal (detail : String)
deriving DecidableEq, Repr

/-- The success body returned by the handler; `log_date` is the resolved
date the reply was filed under. -/
structure ReplySuccess where
  user_email : String
  log_date : Int
  response_length : Nat
deriving DecidableEq, Repr

/-- Python truthiness of an optional string: `None` and the empty string are
falsy. -/
def optStrFalsy : Option String → Bool
  | none => true
  | some s => s == ""

/-- Drop leading whitespace characters from a character list. -/
def dropLeadingWs : List Char → List Char
  | [] => []
  | c :: cs => if c.isWhitespace then dropLeadingWs cs else c :: cs

/-- Model of Python `str.strip()`: drop leading and trailing whitespace. -/
def pyStrip (s : String) : String :=
  ⟨(dropLeadingWs (dropLeadingWs s.data).reverse).reverse⟩

/-- Recognizer for the user-not-found rejection of a handler outcome. -/
def isUserNotFound (r : Except ReplyError ReplySuccess × List DailyLog) : Bool :=
  match r.1 with
  | .error (.notFound _) => true
  | _ => false

/-- Model of `handle_email_reply` (`app/api/replies.py:69-137`): extract the
sender and body (plain text preferred, HTML fallback); reject missing sender
or empty content with 400; resolve the sender with `User.get_by_email`
(which ignores the active flag) and reject an unknown sender with 404; then
the source evaluates `user.timezone` — an attribute the `User` model does
not define (its column is `time_zone`), modelled with `User.getattr`, so the
lookup fails and the `AttributeError` is caught by the generic handler and
returned as a 500; the remaining branch transcribes the rest of the source
(resolve the current date in the sender timezone, get-or-create the record,
store the stripped reply text and the reply timestamp, commit). The store is
returned unchanged on every error path. -/
def handle_email_reply (settingsTz : String) (now : Int) (users : List User)
    (db : List DailyLog) (nextId : Nat) (payload : ReplyPayload) :
    Except ReplyError ReplySuccess × List DailyLog :=
  let from_email := payload.from_email
  let text_content := payload.text
  let html_content := payload.html
  let user_response := if text_content != "" then text_content else html_content
  if optStrFalsy from_email || user_response == "" then
    (.error (.badRequest "Invalid email data: missing from_email or content"), db)
  else
    match from_email with
    | none =>
      -- unreachable: the falsy check above already rejected a missing sender
      (.error (.badRequest "Invalid email data: missing from_email or content"), db)
    | some sender =>
      match User.get_by_email users sender with
      | none => (.error (.notFound ("User not found: " ++ sender)), db)
      | some user =>
        match user.getattr "timezone" with
        | none =>
          (.error (.internal "AttributeError: User object has no attribute timezone"), db)
        | some tz =>
          let today := get_current_date settingsTz now (some tz)
          match DailyLog.get_or_create db db nextId user.id today with
          | .error _ => (.error (.internal "IntegrityError"), db)
          | .ok (daily_log, db1) =>
            let log2 := { daily_log with
              user_response := some (pyStrip user_response)
              user_responded_at := some now }
            let db2 := updateLog db1 log2
            (.ok { user_email := user.email, log_date := today,
                   response_length := user_response.length }, db2)

/-! Derived notions used by the theorems below. -/

/-- The items one repository contributes to `get_commits_for_date`: nothing
when its fetch raises, otherwise its mapped commits. -/
def commitsOfRepo (settingsTz : String) (target_date : Int) (username : String)
    (repo : Repo) : List CommitItem :=
  match fetchCommits username (get_start_of_day settingsTz none target_date)
      (get_end_of_day settingsTz none target_date) repo with
  | .error _ => []
  | .ok commits => commits.map (mkCommitItem repo.full_name)

/-- The items one repository contributes to `get_pull_requests_for_date`. -/
def prsOfRepo (settingsTz : String) (target_date : Int) (username : String)
    (repo : Repo) : List PRItem :=
  match fetchPRs repo with
  | .error _ => []
  | .ok (op, cl) =>
    scanPRs target_date (get_start_of_day settingsTz none target_date) username repo.full_name op
      ++ scanPRs target_date (get_start_of_day settingsTz none target_date) username repo.full_name cl

/-- The items one repository contributes to `get_issues_for_date`. -/
def issuesOfRepo (settingsTz : String) (target_date : Int) (username : String)
    (repo : Repo) : List IssueItem :=
  match fetchIssues username repo with
  | .error _ => []
  | .ok (op, cl) =>
    scanIssues target_date (get_start_of_day settingsTz none target_date) repo.full_name op
      ++ scanIssues target_date (get_start_of_day settingsTz none target_date) repo.full_name cl

/-- Whether one user of the batch counts as failed: its `verify_and_notify`
raised or returned `False`. -/
def userFailed (step : User → Except String Bool) (u : User) : Bool :=
  match step u with
  | .ok true => false
  | .ok false => true
  | .error _ => true

/-- The per-user entry the batch loop appends for one user. -/
def userOutcome (step : User → Except String Bool) (u : User) : UserResult :=
  match step u with
  | .ok true => ⟨u.email, true, none⟩
  | .ok false => ⟨u.email, false, none⟩
  | .error e => ⟨u.email, false, some e⟩

/-- Mutual consistency of a record, as the spec states it: the counts equal
the lengths of the corresponding item lists of the stored snapshot; a record
with no snapshot carries the zero column defaults. -/
def log_consistent (l : DailyLog) : Prop :=
  match l.verification_details with
  | none => l.commits_count = 0 ∧ l.prs_count = 0 ∧ l.issues_count = 0
  | some a => l.commits_count = a.commits.length ∧
      l.prs_count = a.pull_requests.length ∧ l.issues_count = a.issues.length

/-- The record as rewritten by the success path of `verify_user_day`: the
base record with the freshly aggregated counts, snapshot, pass flag and
completion timestamp. -/
def verifiedLog (settingsTz : String) (now : Int) (gh : GithubEnv)
    (user : User) (target_date : Int) (m : Nat) (base : DailyLog) : DailyLog :=
  { base with
    commits_count :=
      (get_daily_activity settingsTz gh.repos target_date user.github_username).commits_count
    prs_count :=
      (get_daily_activity settingsTz gh.repos target_date user.github_username).prs_count
    issues_count :=
      (get_daily_activity settingsTz gh.repos target_date user.github_username).issues_count
    verification_details :=
      some (get_daily_activity settingsTz gh.repos target_date user.github_username)
    verification_completed_at := some now
    verification_passed := some (decide (m ≤
      (get_daily_activity settingsTz gh.repos target_date user.github_username).total_activity)) }

/-! Concrete fixtures for witnesses and counterexamples. -/

/-- An active user in the Douala timezone. -/
def demoUser : User :=
  ⟨1, "alice@example.com", "alice", "ghp-demo-token", true, "Africa/Douala"⟩

/-- A soft-deactivated user. -/
def inactiveBob : User :=
  ⟨2, "bob@example.com", "bob", "ghp-bob-token", false, "UTC"⟩

/-- A commit by the demo user inside UTC day 0. -/
def utcCommit : CommitRaw :=
  ⟨"def456", "Fix login bug", "alice", "Alice", 100, "https://example.com/c1"⟩

/-- A commit by the demo user late in the evening of Douala day 0 (instant
-30, i.e. 23:30 the previous UTC day). -/
def doualaCommit : CommitRaw :=
  ⟨"abc123", "Evening refactor", "alice", "Alice", -30, "https://example.com/c2"⟩

/-- A healthy repository holding exactly `utcCommit`. -/
def oneCommitRepo : Repo :=
  { full_name := "alice/agent", commits := [utcCommit], commits_error := none,
    prs_open := [], prs_closed := [], prs_error := none,
    issues_open := [], issues_closed := [], issues_error := none }

/-- A healthy repository holding exactly `doualaCommit`. -/
def doualaRepo : Repo :=
  { full_name := "alice/night-shift", commits := [doualaCommit], commits_error := none,
    prs_open := [], prs_closed := [], prs_error := none,
    issues_open := [], issues_closed := [], issues_error := none }

/-- A repository whose three fetches all raise. -/
def brokenRepo : Repo :=
  { full_name := "alice/broken",
    commits := [⟨"zzz999", "Hidden work", "alice", "Alice", 200, "https://example.com/c3"⟩],
    commits_error := some "403 rate limit exceeded",
    prs_open := [], prs_closed := [], prs_error := some "403 rate limit exceeded",
    issues_open := [], issues_closed := [], issues_error := some "403 rate limit exceeded" }

/-- A GitHub environment with connectivity and no repositories. -/
def ghZero : GithubEnv := ⟨true, []⟩

/-- A GitHub environment with connectivity and one single-commit repository. -/
def ghOne : GithubEnv := ⟨true, [oneCommitRepo]⟩

/-- A pull request by the demo user created on UTC day 0 (instant 100,
before the America/New_York window start 300) and updated on UTC day 1
(instant 1500, inside that window). -/
def demoPR : PRRaw :=
  ⟨7, "Add feature", "open", 100, 1500, "alice", "https://example.com/p1"⟩

/-- A pull request by the demo user created and updated at instant 1500:
inside the America/New_York day-0 window [300, 1739] but on UTC day 1. -/
def latePR : PRRaw :=
  ⟨8, "Fix docs", "open", 1500, 1500, "alice", "https://example.com/p2"⟩

/-- A healthy repository holding the two demo pull requests. -/
def prRepo : Repo :=
  { full_name := "alice/prs", commits := [], commits_error := none,
    prs_open := [demoPR, latePR], prs_closed := [], prs_error := none,
    issues_open := [], issues_closed := [], issues_error := none }

/-- An issue by the demo user created on UTC day 0. -/
def demoIssue : IssueRaw :=
  ⟨3, "Bug report", "open", 100, 1500, "alice", "https://example.com/i1", false⟩

/-- A healthy repository holding the demo issue. -/
def issueRepo : Repo :=
  { full_name := "alice/issues", commits := [], commits_error := none,
    prs_open := [], prs_closed := [], prs_error := none,
    issues_open := [demoIssue], issues_closed := [], issues_error := none }

/-- The record left for (user 1, day 0) by a successful no-activity
verification run at instant 5. -/
def demoVerifiedLog : DailyLog :=
  { newLog 1 1 0 with
    verification_completed_at := some 5
    verification_passed := some false
    verification_details := some (get_daily_activity "UTC" [] 0 "alice") }

/-- A well-formed reply from the known demo user. -/
def payloadFromAlice : ReplyPayload :=
  { from_email := some "alice@example.com", to_email := some "agent@example.com",
    subject := "Re: Daily Check-in", text := "Fixed two bugs today", html := "" }

/-- A reply from the known demo user whose body is a single space. -/
def payloadWhitespace : ReplyPayload :=
  { from_email := some "alice@example.com", to_email := some "agent@example.com",
    subject := "Re: Daily Check-in", text := " ", html := "" }

/-- A reply from the deactivated user. -/
def payloadFromBob : ReplyPayload :=
  { from_email := some "bob@example.com", to_email := some "agent@example.com",
    subject := "Re: Daily Check-in", text := "Shipped the report", html := "" }

/-- A reply from an address no user row carries. -/
def payloadUnknown : ReplyPayload :=
  { from_email := some "ghost@example.com", to_email := some "agent@example.com",
    subject := "Re: Daily Check-in", text := "Who am I", html := "" }

/-! Store lemmas. -/

/-- Searching an extended table reduces to the extension when the original
table has no match. -/
theorem findLog_append_of_none (db : List DailyLog) (uid : Nat) (d : Int)
    (h : findLog db uid d = none) (l : DailyLog)
    (hl : keyMatch uid d l = true) :
    findLog (db ++ [l]) uid d = some l := by
  unfold findLog at *
  rw [List.find?_append, h]
  rw [List.find?_cons_of_pos _ hl]
  rfl

/-- After committing an update of the row the key query found, the key query
returns the updated row. -/
theorem findLog_updateLog (db : List DailyLog) (uid : Nat) (d : Int)
    (l0 : DailyLog) (h : findLog db uid d = some l0) (l2 : DailyLog)
    (hid : l2.id = l0.id) (hl : keyMatch uid d l2 = true) :
    findLog (updateLog db l2) uid d = some l2 := by
  induction db with
  | nil => simp [findLog] at h
  | cons x xs ih =>
    by_cases hx : keyMatch uid d x = true
    case pos =>
      have hx0 : x = l0 := by
        unfold findLog at h
        rw [List.find?_cons_of_pos _ hx] at h
        exact Option.some.inj h
      have hxid : (x.id == l2.id) = true := by
        simp [hx0, hid]
      unfold updateLog
      rw [List.map_cons, if_pos hxid]
      unfold findLog
      exact List.find?_cons_of_pos _ hl
    case neg =>
      have h' : findLog xs uid d = some l0 := by
        unfold findLog at h ⊢
        rwa [List.find?_cons_of_neg _ hx] at h
      by_cases hxid : (x.id == l2.id) = true
      case pos =>
        unfold updateLog
        rw [List.map_cons, if_pos hxid]
        unfold findLog
        exact List.find?_cons_of_pos _ hl
      case neg =>
        unfold updateLog
        rw [List.map_cons, if_neg hxid]
        unfold findLog
        rw [List.find?_cons_of_neg _ hx]
        exact ih h'

/-- Membership in an updated table comes from the new row or the old table. -/
theorem mem_updateLog (db : List DailyLog) (l2 l : DailyLog)
    (h : l ∈ updateLog db l2) : l = l2 ∨ l ∈ db := by
  unfold updateLog at h
  rcases List.mem_map.mp h with ⟨r, hr, hrl⟩
  by_cases hid : (r.id == l2.id) = true
  · rw [if_pos hid] at hrl
    exact Or.inl hrl.symm
  · rw [if_neg hid] at hrl
    exact Or.inr (hrl ▸ hr)

/-- After a verification run with working connectivity, the key query finds
the record for (user, date), and it carries exactly the freshly computed
activity fields. -/
theorem verify_found (settingsTz : String) (now : Int) (gh : GithubEnv)
    (db : List DailyLog) (nextId : Nat) (user : User) (target_date : Int)
    (m : Nat) (h : gh.connection_ok = true) :
    ∃ l, findLog (verify_user_day settingsTz now gh db nextId user target_date m).2
        user.id target_date = some l ∧
      l.commits_count =
        (get_daily_activity settingsTz gh.repos target_date user.github_username).commits_count ∧
      l.prs_count =
        (get_daily_activity settingsTz gh.repos target_date user.github_username).prs_count ∧
      l.issues_count =
        (get_daily_activity settingsTz gh.repos target_date user.github_username).issues_count ∧
      l.verification_passed = some (decide (m ≤
        (get_daily_activity settingsTz gh.repos target_date user.github_username).total_activity)) ∧
      l.verification_details =
        some (get_daily_activity settingsTz gh.repos target_date user.github_username) ∧
      l.verification_completed_at = some now := by
  cases hf : findLog db user.id target_date with
  | some l0 =>
    have hkey : keyMatch user.id target_date l0 = true := List.find?_some hf
    have hoc : DailyLog.get_or_create db db nextId user.id target_date = .ok (l0, db) := by
      unfold DailyLog.get_or_create
      rw [hf]
    have e2 : (verify_user_day settingsTz now gh db nextId user target_date m).2 =
        updateLog db (verifiedLog settingsTz now gh user target_date m l0) := by
      unfold verify_user_day
      rw [hoc, h]
      rfl
    refine ⟨verifiedLog settingsTz now gh user target_date m l0,
      ?_, rfl, rfl, rfl, rfl, rfl, rfl⟩
    rw [e2]
    exact findLog_updateLog db user.id target_date l0 hf _ rfl hkey
  | none =>
    have hknew : keyMatch user.id target_date (newLog nextId user.id target_date) = true := by
      simp [keyMatch, newLog]
    have hoc : DailyLog.get_or_create db db nextId user.id target_date =
        .ok (newLog nextId user.id target_date, db ++ [newLog nextId user.id target_date]) := by
      unfold DailyLog.get_or_create
      rw [hf]
      simp [hf]
    have hfind1 : findLog (db ++ [newLog nextId user.id target_date]) user.id target_date =
        some (newLog nextId user.id target_date) :=
      findLog_append_of_none db user.id target_date hf _ hknew
    have e2 : (verify_user_day settingsTz now gh db nextId user target_date m).2 =
        updateLog (db ++ [newLog nextId user.id target_date])
          (verifiedLog settingsTz now gh user target_date m
            (newLog nextId user.id target_date)) := by
      unfold verify_user_day
      rw [hoc, h]
      rfl
    refine ⟨verifiedLog settingsTz now gh user target_date m
      (newLog nextId user.id target_date), ?_, rfl, rfl, rfl, rfl, rfl, rfl⟩
    rw [e2]
    exact findLog_updateLog _ user.id target_date _ hfind1 _ rfl hknew

/-- C1: for every verification run with working connectivity, with snapshot
counts c commits, p pull requests and i issues and threshold min_required,
the result's passed flag is true if and only if c + p + i >= min_required
(the source computes it as total_activity >= min_required, with
total_activity the sum of the three counts; the default threshold is 1). -/
theorem passed_iff_min_required (settingsTz : String) (now : Int)
    (gh : GithubEnv) (db : List DailyLog) (nextId : Nat) (user : User)
    (target_date : Int) (min_required : Nat) (h : gh.connection_ok = true) :
    ((verify_user_day settingsTz now gh db nextId user target_date min_required).1.passed = true ↔
      min_required ≤
        (get_daily_activity settingsTz gh.repos target_date user.github_username).commits_count +
        (get_daily_activity settingsTz gh.repos target_date user.github_username).prs_count +
        (get_daily_activity settingsTz gh.repos target_date user.github_username).issues_count) := by
  cases hf : findLog db user.id target_date with
  | some l0 =>
    have hoc : DailyLog.get_or_create db db nextId user.id target_date = .ok (l0, db) := by
      unfold DailyLog.get_or_create
      rw [hf]
    have e1 : (verify_user_day settingsTz now gh db nextId user target_date min_required).1.passed =
        decide (min_required ≤
          (get_daily_activity settingsTz gh.repos target_date user.github_username).total_activity) := by
      unfold verify_user_day
      rw [hoc, h]
      rfl
    rw [e1, decide_eq_true_iff]
    exact Iff.rfl
  | none =>
    have hoc : DailyLog.get_or_create db db nextId user.id target_date =
        .ok (newLog nextId user.id target_date, db ++ [newLog nextId user.id target_date]) := by
      unfold DailyLog.get_or_create
      rw [hf]
      simp [hf]
    have e1 : (verify_user_day settingsTz now gh db nextId user target_date min_required).1.passed =
        decide (min_required ≤
          (get_daily_activity settingsTz gh.repos target_date user.github_username).total_activity) := by
      unfold verify_user_day
      rw [hoc, h]
      rfl
    rw [e1, decide_eq_true_iff]
    exact Iff.rfl

/-- Witness for C1 at concrete inputs: with the one-commit environment the
hypothesis holds and the iff is obtained from the theorem; the snapshot
{commits 0, prs 0, issues 0} yields passed = false and
{commits 1, prs 0, issues 0} yields passed = true at the default
threshold 1. -/
theorem passed_iff_min_required_witness :
    ghOne.connection_ok = true ∧
    ((verify_user_day "UTC" 0 ghOne [] 1 demoUser 0 1).1.passed = true ↔
      1 ≤ (get_daily_activity "UTC" ghOne.repos 0 demoUser.github_username).commits_count +
        (get_daily_activity "UTC" ghOne.repos 0 demoUser.github_username).prs_count +
        (get_daily_activity "UTC" ghOne.repos 0 demoUser.github_username).issues_count) ∧
    (verify_user_day "UTC" 0 ghZero [] 1 demoUser 0 1).1.passed = false ∧
    (verify_user_day "UTC" 0 ghOne [] 1 demoUser 0 1).1.passed = true :=
  ⟨rfl, passed_iff_min_required "UTC" 0 ghOne [] 1 demoUser 0 1 rfl, rfl, rfl⟩

/-- C2: running verification twice in sequence for the same (user, date)
with possibly different activity leaves the stored record's counts, passed
flag and detail snapshot equal to the values computed by the second run
alone: the second run overwrites, it never adds to the first run's counts. -/
theorem verify_overwrites (settingsTz : String) (t1 t2 : Int)
    (gh1 gh2 : GithubEnv) (db : List DailyLog) (n1 n2 n3 : Nat) (u : User)
    (d : Int) (m1 m2 : Nat) (h2 : gh2.connection_ok = true)
    (l2 l2' : DailyLog)
    (hseq : findLog (verify_user_day settingsTz t2 gh2
        (verify_user_day settingsTz t1 gh1 db n1 u d m1).2 n2 u d m2).2 u.id d = some l2)
    (hsingle : findLog (verify_user_day settingsTz t2 gh2 db n3 u d m2).2 u.id d = some l2') :
    l2.commits_count = l2'.commits_count ∧ l2.prs_count = l2'.prs_count ∧
    l2.issues_count = l2'.issues_count ∧
    l2.verification_passed = l2'.verification_passed ∧
    l2.verification_details = l2'.verification_details := by
  obtain ⟨la, hfa, hc1, hp1, hi1, hv1, hd1, _⟩ :=
    verify_found settingsTz t2 gh2 (verify_user_day settingsTz t1 gh1 db n1 u d m1).2 n2 u d m2 h2
  obtain ⟨lb, hfb, hc2, hp2, hi2, hv2, hd2, _⟩ :=
    verify_found settingsTz t2 gh2 db n3 u d m2 h2
  rw [hseq] at hfa
  rw [hsingle] at hfb
  cases Option.some.inj hfa
  cases Option.some.inj hfb
  refine ⟨?_, ?_, ?_, ?_, ?_⟩
  · rw [hc1, hc2]
  · rw [hp1, hp2]
  · rw [hi1, hi2]
  · rw [hv1, hv2]
  · rw [hd1, hd2]

/-- Witness for C2 at concrete inputs: on the empty store, a run at instant
5 followed by a second run leaves the same record a single second run
leaves, here the no-activity verified record. -/
theorem verify_overwrites_witness :
    ghZero.connection_ok = true ∧
    findLog (verify_user_day "UTC" 5 ghZero
      (verify_user_day "UTC" 5 ghZero [] 1 demoUser 0 1).2 2 demoUser 0 1).2
      demoUser.id 0 = some demoVerifiedLog ∧
    findLog (verify_user_day "UTC" 5 ghZero [] 1 demoUser 0 1).2
      demoUser.id 0 = some demoVerifiedLog ∧
    (demoVerifiedLog.commits_count = demoVerifiedLog.commits_count ∧
     demoVerifiedLog.prs_count = demoVerifiedLog.prs_count ∧
     demoVerifiedLog.issues_count = demoVerifiedLog.issues_count ∧
     demoVerifiedLog.verification_passed = demoVerifiedLog.verification_passed ∧
     demoVerifiedLog.verification_details = demoVerifiedLog.verification_details) :=
  ⟨rfl, rfl, rfl,
    verify_overwrites "UTC" 5 5 ghZero ghZero [] 1 2 1 demoUser 0 1 1 rfl
      demoVerifiedLog demoVerifiedLog rfl rfl⟩

/-- The record written by the success path satisfies the counts-snapshot
invariant by construction: its counts are the snapshot lengths. -/
theorem log_consistent_verifiedLog (settingsTz : String) (now : Int)
    (gh : GithubEnv) (user : User) (target_date : Int) (m : Nat)
    (base : DailyLog) :
    log_consistent (verifiedLog settingsTz now gh user target_date m base) :=
  ⟨rfl, rfl, rfl⟩

/-- A freshly created record satisfies the counts-snapshot invariant: no
snapshot and the zero column defaults. -/
theorem log_consistent_newLog (id user_id : Nat) (log_date : Int) :
    log_consistent (newLog id user_id log_date) :=
  ⟨rfl, rfl, rfl⟩

/-- C7: after any verification run, every stored record still has counts
equal to the lengths of the corresponding item lists of its stored snapshot
(counts, detail, passed flag and completion timestamp are committed together
in one transaction); on a non-success outcome no record's verification
fields change: the store holds only original rows, plus at most the blank
row created by get-or-create before the failure. -/
theorem verification_counts_consistent (settingsTz : String) (now : Int)
    (gh : GithubEnv) (db : List DailyLog) (nextId : Nat) (user : User)
    (target_date : Int) (m : Nat)
    (h : ∀ l ∈ db, log_consistent l) :
    (∀ l ∈ (verify_user_day settingsTz now gh db nextId user target_date m).2,
      log_consistent l) ∧
    ((verify_user_day settingsTz now gh db nextId user target_date m).1.success = false →
      ∀ l ∈ (verify_user_day settingsTz now gh db nextId user target_date m).2,
        l ∈ db ∨ l = newLog nextId user.id target_date) := by
  cases hf : findLog db user.id target_date with
  | some l0 =>
    have hoc : DailyLog.get_or_create db db nextId user.id target_date = .ok (l0, db) := by
      unfold DailyLog.get_or_create
      rw [hf]
    cases hcon : gh.connection_ok with
    | true =>
      have e2 : (verify_user_day settingsTz now gh db nextId user target_date m).2 =
          updateLog db (verifiedLog settingsTz now gh user target_date m l0) := by
        unfold verify_user_day
        rw [hoc, hcon]
        rfl
      have e1 : (verify_user_day settingsTz now gh db nextId user target_date m).1.success = true := by
        unfold verify_user_day
        rw [hoc, hcon]
        rfl
      constructor
      · intro l hl
        rw [e2] at hl
        rcases mem_updateLog db _ l hl with hl2 | hmem
        · rw [hl2]
          exact log_consistent_verifiedLog settingsTz now gh user target_date m l0
        · exact h l hmem
      · intro hfail
        rw [e1] at hfail
        exact absurd hfail (by simp)
    | false =>
      have e2 : (verify_user_day settingsTz now gh db nextId user target_date m).2 = db := by
        unfold verify_user_day
        rw [hoc, hcon]
        rfl
      constructor
      · intro l hl
        rw [e2] at hl
        exact h l hl
      · intro _ l hl
        rw [e2] at hl
        exact Or.inl hl
  | none =>
    have hoc : DailyLog.get_or_create db db nextId user.id target_date =
        .ok (newLog nextId user.id target_date, db ++ [newLog nextId user.id target_date]) := by
      unfold DailyLog.get_or_create
      rw [hf]
      simp [hf]
    cases hcon : gh.connection_ok with
    | true =>
      have e2 : (verify_user_day settingsTz now gh db nextId user target_date m).2 =
          updateLog (db ++ [newLog nextId user.id target_date])
            (verifiedLog settingsTz now gh user target_date m
              (newLog nextId user.id target_date)) := by
        unfold verify_user_day
        rw [hoc, hcon]
        rfl
      have e1 : (verify_user_day settingsTz now gh db nextId user target_date m).1.success = true := by
        unfold verify_user_day
        rw [hoc, hcon]
        rfl
      constructor
      · intro l hl
        rw [e2] at hl
        rcases mem_updateLog _ _ l hl with hl2 | hmem
        · rw [hl2]
          exact log_consistent_verifiedLog settingsTz now gh user target_date m _
        · rcases List.mem_append.mp hmem with hdb | hnew
          · exact h l hdb
          · rw [List.mem_singleton.mp hnew]
            exact log_consistent_newLog nextId user.id target_date
      · intro hfail
        rw [e1] at hfail
        exact absurd hfail (by simp)
    | false =>
      have e2 : (verify_user_day settingsTz now gh db nextId user target_date m).2 =
          db ++ [newLog nextId user.id target_date] := by
        unfold verify_user_day
        rw [hoc, hcon]
        rfl
      constructor
      · intro l hl
        rw [e2] at hl
        rcases List.mem_append.mp hl with hdb | hnew
        · exact h l hdb
        · rw [List.mem_singleton.mp hnew]
          exact log_consistent_newLog nextId user.id target_date
      · intro _ l hl
        rw [e2] at hl
        rcases List.mem_append.mp hl with hdb | hnew
        · exact Or.inl hdb
        · exact Or.inr (List.mem_singleton.mp hnew)

/-- Witness for C7: the empty store trivially satisfies the invariant, and
after a run with the one-commit environment every stored record satisfies
it. -/
theorem verification_counts_consistent_witness :
    (∀ l ∈ ([] : List DailyLog), log_consistent l) ∧
    (∀ l ∈ (verify_user_day "UTC" 5 ghOne [] 1 demoUser 0 1).2, log_consistent l) :=
  ⟨by simp,
    (verification_counts_consistent "UTC" 5 ghOne [] 1 demoUser 0 1 (by simp)).1⟩

/-- Accumulator-generalised behaviour of the batch loop: the failed counter
grows by exactly the failed users and the result list by one entry per user,
whatever the loop body meets. -/
theorem verify_all_users_foldl (step : User → Except String Bool)
    (lookupPassed : User → Option Bool) (users : List User) :
    ∀ acc : BatchResults,
      (users.foldl (verify_all_users_step step lookupPassed) acc).failed =
        acc.failed + (users.filter (userFailed step)).length ∧
      (users.foldl (verify_all_users_step step lookupPassed) acc).user_results =
        acc.user_results ++ users.map (userOutcome step) := by
  induction users with
  | nil => intro acc; simp
  | cons u rest ih =>
    intro acc
    have hrest := ih (verify_all_users_step step lookupPassed acc u)
    rcases hstep : step u with e | b
    · have hu : userFailed step u = true := by
        unfold userFailed
        rw [hstep]
      have ho : userOutcome step u = ⟨u.email, false, some e⟩ := by
        unfold userOutcome
        rw [hstep]
      have hb1 : (verify_all_users_step step lookupPassed acc u).failed = acc.failed + 1 := by
        unfold verify_all_users_step
        rw [hstep]
      have hb2 : (verify_all_users_step step lookupPassed acc u).user_results =
          acc.user_results ++ [⟨u.email, false, some e⟩] := by
        unfold verify_all_users_step
        rw [hstep]
      constructor
      · rw [List.foldl_cons, hrest.1, hb1, List.filter_cons, if_pos hu,
          List.length_cons]
        omega
      · rw [List.foldl_cons, hrest.2, hb2, List.map_cons, ho]
        simp [List.append_assoc]
    · cases b with
      | false =>
        have hu : userFailed step u = true := by
          unfold userFailed
          rw [hstep]
        have ho : userOutcome step u = ⟨u.email, false, none⟩ := by
          unfold userOutcome
          rw [hstep]
        have hb1 : (verify_all_users_step step lookupPassed acc u).failed = acc.failed + 1 := by
          unfold verify_all_users_step
          rw [hstep]
          rfl
        have hb2 : (verify_all_users_step step lookupPassed acc u).user_results =
            acc.user_results ++ [⟨u.email, false, none⟩] := by
          unfold verify_all_users_step
          rw [hstep]
          rfl
        constructor
        · rw [List.foldl_cons, hrest.1, hb1, List.filter_cons, if_pos hu,
            List.length_cons]
          omega
        · rw [List.foldl_cons, hrest.2, hb2, List.map_cons, ho]
          simp [List.append_assoc]
      | true =>
        have hu : userFailed step u = false := by
          unfold userFailed
          rw [hstep]
        have ho : userOutcome step u = ⟨u.email, true, none⟩ := by
          unfold userOutcome
          rw [hstep]
        have hb : (verify_all_users_step step lookupPassed acc u).failed = acc.failed ∧
            (verify_all_users_step step lookupPassed acc u).user_results =
              acc.user_results ++ [⟨u.email, true, none⟩] := by
          unfold verify_all_users_step
          rw [hstep]
          rcases hlp : lookupPassed u with _ | bp
          · simp [hlp]
          · cases bp <;> simp [hlp]
        constructor
        · rw [List.foldl_cons, hrest.1, hb.1, List.filter_cons,
            if_neg (by simp [hu])]
        · rw [List.foldl_cons, hrest.2, hb.2, List.map_cons, ho]
          simp [List.append_assoc]

/-- C4: in a batch verification run, an exception raised for one user does
not prevent any later user from being processed: every user contributes
exactly one entry to the per-user result list, in order, and the failed
counter equals exactly the number of users whose per-user verification
raised an exception or returned non-success. -/
theorem verify_all_users_fault_isolation (step : User → Except String Bool)
    (lookupPassed : User → Option Bool) (users : List User) :
    (verify_all_users step lookupPassed users).failed =
      (users.filter (userFailed step)).length ∧
    (verify_all_users step lookupPassed users).user_results.map
      (fun r => r.user_email) = users.map (fun u => u.email) := by
  have h := verify_all_users_foldl step lookupPassed users
    { total_users := users.length, successful := 0, failed := 0, passed := 0,
      not_passed := 0, user_results := [] }
  unfold verify_all_users
  constructor
  · rw [h.1]
    simp
  · rw [h.2]
    simp only [List.nil_append, List.map_map]
    apply List.map_congr_left
    intro u _
    rcases hstep : step u with e | b
    · simp [userOutcome, hstep]
    · cases b <;> simp [userOutcome, hstep]

/-- Folding list-append over a list is joining the mapped contributions. -/
theorem foldl_append_flatten {α β : Type} (g : α → List β) :
    ∀ (l : List α) (acc : List β),
      l.foldl (fun a x => a ++ g x) acc = acc ++ (l.map g).flatten := by
  intro l
  induction l with
  | nil => intro acc; simp
  | cons x xs ih =>
    intro acc
    rw [List.foldl_cons, ih, List.map_cons, List.flatten_cons, List.append_assoc]

/-- The commits aggregation is the join of the per-repository
contributions. -/
theorem get_commits_eq_flatten (settingsTz : String) (target_date : Int)
    (username : String) (repos : List Repo) :
    get_commits_for_date settingsTz target_date username repos =
      (repos.map (commitsOfRepo settingsTz target_date username)).flatten := by
  unfold get_commits_for_date
  dsimp only
  have hbody : (fun (commits_data : List CommitItem) (repo : Repo) =>
      match fetchCommits username (get_start_of_day settingsTz none target_date)
          (get_end_of_day settingsTz none target_date) repo with
      | .error _ => commits_data
      | .ok commits => commits_data ++ commits.map (mkCommitItem repo.full_name)) =
      fun commits_data repo =>
        commits_data ++ commitsOfRepo settingsTz target_date username repo := by
    funext commits_data repo
    unfold commitsOfRepo
    rcases fetchCommits username (get_start_of_day settingsTz none target_date)
        (get_end_of_day settingsTz none target_date) repo with e | commits
    · simp
    · simp
  rw [hbody, foldl_append_flatten]
  simp

/-- The pull-request aggregation is the join of the per-repository
contributions. -/
theorem get_prs_eq_flatten (settingsTz : String) (target_date : Int)
    (username : String) (repos : List Repo) :
    get_pull_requests_for_date settingsTz target_date username repos =
      (repos.map (prsOfRepo settingsTz target_date username)).flatten := by
  unfold get_pull_requests_for_date
  dsimp only
  have hbody : (fun (prs_data : List PRItem) (repo : Repo) =>
      match fetchPRs repo with
      | .error _ => prs_data
      | .ok (op, cl) => prs_data
          ++ scanPRs target_date (get_start_of_day settingsTz none target_date) username repo.full_name op
          ++ scanPRs target_date (get_start_of_day settingsTz none target_date) username repo.full_name cl) =
      fun prs_data repo =>
        prs_data ++ prsOfRepo settingsTz target_date username repo := by
    funext prs_data repo
    unfold prsOfRepo
    rcases fetchPRs repo with e | pair
    · simp
    · rcases pair with ⟨op, cl⟩
      simp [List.append_assoc]
  rw [hbody, foldl_append_flatten]
  simp

/-- The issues aggregation is the join of the per-repository
contributions. -/
theorem get_issues_eq_flatten (settingsTz : String) (target_date : Int)
    (username : String) (repos : List Repo) :
    get_issues_for_date settingsTz target_date username repos =
      (repos.map (issuesOfRepo settingsTz target_date username)).flatten := by
  unfold get_issues_for_date
  dsimp only
  have hbody : (fun (issues_data : List IssueItem) (repo : Repo) =>
      match fetchIssues username repo with
      | .error _ => issues_data
      | .ok (op, cl) => issues_data
          ++ scanIssues target_date (get_start_of_day settingsTz none target_date) repo.full_name op
          ++ scanIssues target_date (get_start_of_day settingsTz none target_date) repo.full_name cl) =
      fun issues_data repo =>
        issues_data ++ issuesOfRepo settingsTz target_date username repo := by
    funext issues_data repo
    unfold issuesOfRepo
    rcases fetchIssues username repo with e | pair
    · simp
    · rcases pair with ⟨op, cl⟩
      simp [List.append_assoc]
  rw [hbody, foldl_append_flatten]
  simp

/-- C5: a per-repository fetch exception neither propagates out of the
aggregation (the aggregation is a total function of the configured fetch
outcomes) nor removes any other repository's items: dropping a repository
whose three fetches all raise leaves the snapshot unchanged, and in general
the snapshot is exactly the merge of the successfully fetched repositories'
contributions, category by category. -/
theorem get_daily_activity_fault_isolation (settingsTz : String) (d : Int)
    (username : String) (l1 l2 : List Repo) (bad : Repo)
    (hc : bad.commits_error.isSome = true) (hp : bad.prs_error.isSome = true)
    (hi : bad.issues_error.isSome = true) :
    get_daily_activity settingsTz (l1 ++ bad :: l2) d username =
      get_daily_activity settingsTz (l1 ++ l2) d username ∧
    (∀ repos : List Repo,
      (get_daily_activity settingsTz repos d username).commits =
        (repos.map (commitsOfRepo settingsTz d username)).flatten ∧
      (get_daily_activity settingsTz repos d username).pull_requests =
        (repos.map (prsOfRepo settingsTz d username)).flatten ∧
      (get_daily_activity settingsTz repos d username).issues =
        (repos.map (issuesOfRepo settingsTz d username)).flatten) := by
  have hcb : commitsOfRepo settingsTz d username bad = [] := by
    obtain ⟨e, he⟩ := Option.isSome_iff_exists.mp hc
    unfold commitsOfRepo fetchCommits
    rw [he]
  have hpb : prsOfRepo settingsTz d username bad = [] := by
    obtain ⟨e, he⟩ := Option.isSome_iff_exists.mp hp
    unfold prsOfRepo fetchPRs
    rw [he]
  have hib : issuesOfRepo settingsTz d username bad = [] := by
    obtain ⟨e, he⟩ := Option.isSome_iff_exists.mp hi
    unfold issuesOfRepo fetchIssues
    rw [he]
  have e1 : get_commits_for_date settingsTz d username (l1 ++ bad :: l2) =
      get_commits_for_date settingsTz d username (l1 ++ l2) := by
    rw [get_commits_eq_flatten, get_commits_eq_flatten]
    simp [List.map_append, List.map_cons, List.flatten_append, List.flatten_cons, hcb]
  have e2 : get_pull_requests_for_date settingsTz d username (l1 ++ bad :: l2) =
      get_pull_requests_for_date settingsTz d username (l1 ++ l2) := by
    rw [get_prs_eq_flatten, get_prs_eq_flatten]
    simp [List.map_append, List.map_cons, List.flatten_append, List.flatten_cons, hpb]
  have e3 : get_issues_for_date settingsTz d username (l1 ++ bad :: l2) =
      get_issues_for_date settingsTz d username (l1 ++ l2) := by
    rw [get_issues_eq_flatten, get_issues_eq_flatten]
    simp [List.map_append, List.map_cons, List.flatten_append, List.flatten_cons, hib]
  constructor
  · unfold get_daily_activity
    dsimp only
    rw [e1, e2, e3]
  · intro repos
    exact ⟨get_commits_eq_flatten settingsTz d username repos,
      get_prs_eq_flatten settingsTz d username repos,
      get_issues_eq_flatten settingsTz d username repos⟩

/-- Witness for C5 at concrete inputs: the broken repository raises on all
three fetches, and the snapshot over the healthy and broken repositories
equals the snapshot over the healthy one alone. -/
theorem get_daily_activity_fault_isolation_witness :
    brokenRepo.commits_error.isSome = true ∧
    brokenRepo.prs_error.isSome = true ∧
    brokenRepo.issues_error.isSome = true ∧
    get_daily_activity "UTC" [oneCommitRepo, brokenRepo] 0 "alice" =
      get_daily_activity "UTC" [oneCommitRepo] 0 "alice" :=
  ⟨rfl, rfl, rfl,
    (get_daily_activity_fault_isolation "UTC" 0 "alice" [oneCommitRepo] []
      brokenRepo rfl rfl rfl).1⟩

/-- Membership in one repository's commit contribution: the fetch did not
raise and a raw commit by the user inside the settings-timezone window maps
to the item. -/
theorem mem_commitsOfRepo (settingsTz : String) (d : Int) (username : String)
    (repo : Repo) (c : CommitItem) :
    c ∈ commitsOfRepo settingsTz d username repo ↔
      repo.commits_error = none ∧ ∃ raw ∈ repo.commits,
        raw.author_login = username ∧
        get_start_of_day settingsTz none d ≤ raw.date ∧
        raw.date ≤ get_end_of_day settingsTz none d ∧
        mkCommitItem repo.full_name raw = c := by
  unfold commitsOfRepo fetchCommits
  cases he : repo.commits_error with
  | some e => simp
  | none =>
    simp [List.mem_map, List.mem_filter, Bool.and_eq_true, decide_eq_true_eq,
      beq_iff_eq, and_assoc]

/-- Every item the pull-request scan keeps comes from a raw pull request by
the queried user whose created-at or updated-at UTC calendar date equals the
target date (the early stop can only drop items, never add them). -/
theorem mem_scanPRs (target_date start_dt : Int) (username repoName : String) :
    ∀ (l : List PRRaw) (p : PRItem),
      p ∈ scanPRs target_date start_dt username repoName l →
      ∃ raw, raw ∈ l ∧ raw.user_login = username ∧
        (dateOf raw.created_at = target_date ∨ dateOf raw.updated_at = target_date) ∧
        p = mkPRItem repoName raw := by
  intro l
  induction l with
  | nil =>
    intro p hp
    simp [scanPRs] at hp
  | cons pr rest ih =>
    intro p hp
    unfold scanPRs at hp
    dsimp only at hp
    have hkeep : ∀ hmem : p ∈ (if (pr.user_login == username &&
        (dateOf pr.created_at == target_date || dateOf pr.updated_at == target_date)) = true
        then [mkPRItem repoName pr] else []),
        ∃ raw, raw ∈ pr :: rest ∧ raw.user_login = username ∧
          (dateOf raw.created_at = target_date ∨ dateOf raw.updated_at = target_date) ∧
          p = mkPRItem repoName raw := by
      intro hmem
      by_cases hk : (pr.user_login == username &&
          (dateOf pr.created_at == target_date || dateOf pr.updated_at == target_date)) = true
      · rw [if_pos hk] at hmem
        simp only [Bool.and_eq_true, Bool.or_eq_true, beq_iff_eq] at hk
        exact ⟨pr, List.mem_cons_self pr rest, hk.1, hk.2, List.mem_singleton.mp hmem⟩
      · rw [if_neg hk] at hmem
        simp at hmem
    by_cases hbreak : pr.updated_at < start_dt
    · rw [if_pos hbreak] at hp
      exact hkeep hp
    · rw [if_neg hbreak] at hp
      rcases List.mem_append.mp hp with hmem | hmem
      · exact hkeep hmem
      · obtain ⟨raw, hraw, hrest⟩ := ih p hmem
        exact ⟨raw, List.mem_cons_of_mem pr hraw, hrest⟩

/-- Every item the issue scan keeps comes from a raw non-PR issue whose
created-at or updated-at UTC calendar date equals the target date. -/
theorem mem_scanIssues (target_date start_dt : Int) (repoName : String) :
    ∀ (l : List IssueRaw) (i : IssueItem),
      i ∈ scanIssues target_date start_dt repoName l →
      ∃ raw, raw ∈ l ∧ raw.is_pr = false ∧
        (dateOf raw.created_at = target_date ∨ dateOf raw.updated_at = target_date) ∧
        i = mkIssueItem repoName raw := by
  intro l
  induction l with
  | nil =>
    intro i hi
    simp [scanIssues] at hi
  | cons issue rest ih =>
    intro i hi
    unfold scanIssues at hi
    by_cases hpr : issue.is_pr = true
    · rw [if_pos hpr] at hi
      obtain ⟨raw, hraw, hrest⟩ := ih i hi
      exact ⟨raw, List.mem_cons_of_mem issue hraw, hrest⟩
    · rw [if_neg hpr] at hi
      dsimp only at hi
      have hkeep : ∀ hmem : i ∈ (if (dateOf issue.created_at == target_date ||
          dateOf issue.updated_at == target_date) = true
          then [mkIssueItem repoName issue] else []),
          ∃ raw, raw ∈ issue :: rest ∧ raw.is_pr = false ∧
            (dateOf raw.created_at = target_date ∨ dateOf raw.updated_at = target_date) ∧
            i = mkIssueItem repoName raw := by
        intro hmem
        by_cases hk : (dateOf issue.created_at == target_date ||
            dateOf issue.updated_at == target_date) = true
        · rw [if_pos hk] at hmem
          simp only [Bool.or_eq_true, beq_iff_eq] at hk
          exact ⟨issue, List.mem_cons_self issue rest,
            Bool.not_eq_true issue.is_pr ▸ hpr, hk, List.mem_singleton.mp hmem⟩
        · rw [if_neg hk] at hmem
          simp at hmem
      by_cases hbreak : issue.updated_at < start_dt
      · rw [if_pos hbreak] at hi
        exact hkeep hi
      · rw [if_neg hbreak] at hi
        rcases List.mem_append.mp hi with hmem | hmem
        · exact hkeep hmem
        · obtain ⟨raw, hraw, hrest⟩ := ih i hmem
          exact ⟨raw, List.mem_cons_of_mem issue hraw, hrest⟩

/-- C8 (amended): no activity query consults the user's own timezone. The
commit query is bounded by the civil day in the settings timezone (the
`get_start_of_day`/`get_end_of_day` calls pass no timezone): a commit item
appears exactly when some repository's fetch succeeded and served a raw
commit by the queried username dated inside the settings-timezone window.
Pull-request and issue selection is not bounded by that window at all: every
selected pull request is by the queried user and was created or updated on
the target UTC calendar date, and every selected issue is by the queried
creator and was created or updated on the target UTC calendar date (the
window start only drives the early-stop scan optimization). -/
theorem activity_window_settings_tz (settingsTz : String) (d : Int)
    (username : String) (repos : List Repo) :
    (∀ c : CommitItem, c ∈ get_commits_for_date settingsTz d username repos ↔
      ∃ repo ∈ repos, repo.commits_error = none ∧ ∃ raw ∈ repo.commits,
        raw.author_login = username ∧
        get_start_of_day settingsTz none d ≤ raw.date ∧
        raw.date ≤ get_end_of_day settingsTz none d ∧
        mkCommitItem repo.full_name raw = c) ∧
    (∀ p : PRItem, p ∈ get_pull_requests_for_date settingsTz d username repos →
      p.author = username ∧ (dateOf p.created_at = d ∨ dateOf p.updated_at = d)) ∧
    (∀ i : IssueItem, i ∈ get_issues_for_date settingsTz d username repos →
      i.author = username ∧ (dateOf i.created_at = d ∨ dateOf i.updated_at = d)) := by
  refine ⟨?_, ?_, ?_⟩
  · intro c
    rw [get_commits_eq_flatten]
    simp only [List.mem_flatten, List.mem_map]
    constructor
    · rintro ⟨l, ⟨repo, hrepo, rfl⟩, hc⟩
      exact ⟨repo, hrepo, (mem_commitsOfRepo settingsTz d username repo c).mp hc⟩
    · rintro ⟨repo, hrepo, hrest⟩
      exact ⟨commitsOfRepo settingsTz d username repo, ⟨repo, hrepo, rfl⟩,
        (mem_commitsOfRepo settingsTz d username repo c).mpr hrest⟩
  · intro p hp
    rw [get_prs_eq_flatten] at hp
    rcases List.mem_flatten.mp hp with ⟨l, hl, hpl⟩
    rcases List.mem_map.mp hl with ⟨repo, _, rfl⟩
    unfold prsOfRepo at hpl
    rcases hfetch : fetchPRs repo with e | pair
    · rw [hfetch] at hpl
      simp at hpl
    · rcases pair with ⟨op, cl⟩
      rw [hfetch] at hpl
      rcases List.mem_append.mp hpl with hmem | hmem
      all_goals
        obtain ⟨raw, _, huser, hdate, hpe⟩ :=
          mem_scanPRs d (get_start_of_day settingsTz none d) username repo.full_name _ p hmem
      all_goals subst hpe
      all_goals exact ⟨huser, hdate⟩
  · intro i hi
    rw [get_issues_eq_flatten] at hi
    rcases List.mem_flatten.mp hi with ⟨l, hl, hil⟩
    rcases List.mem_map.mp hl with ⟨repo, _, rfl⟩
    unfold issuesOfRepo at hil
    rcases hfetch : fetchIssues username repo with e | pair
    · rw [hfetch] at hil
      simp at hil
    · rcases pair with ⟨op, cl⟩
      have hiser : repo.issues_error = none := by
        unfold fetchIssues at hfetch
        rcases he : repo.issues_error with _ | e2
        · rfl
        · rw [he] at hfetch
          exact absurd hfetch (by simp)
      have hpair : op = repo.issues_open.filter (fun r => r.user_login == username) ∧
          cl = repo.issues_closed.filter (fun r => r.user_login == username) := by
        unfold fetchIssues at hfetch
        rw [hiser] at hfetch
        have := Except.ok.inj hfetch
        exact ⟨(Prod.mk.injEq _ _ _ _ ▸ this).1.symm, (Prod.mk.injEq _ _ _ _ ▸ this).2.symm⟩
      rw [hfetch] at hil
      rcases List.mem_append.mp hil with hmem | hmem
      · obtain ⟨raw, hraw, _, hdate, hie⟩ :=
          mem_scanIssues d (get_start_of_day settingsTz none d) repo.full_name _ i hmem
        rw [hpair.1] at hraw
        have huser : raw.user_login = username :=
          beq_iff_eq.mp (List.mem_filter.mp hraw).2
        subst hie
        exact ⟨huser, hdate⟩
      · obtain ⟨raw, hraw, _, hdate, hie⟩ :=
          mem_scanIssues d (get_start_of_day settingsTz none d) repo.full_name _ i hmem
        rw [hpair.2] at hraw
        have huser : raw.user_login = username :=
          beq_iff_eq.mp (List.mem_filter.mp hraw).2
        subst hie
        exact ⟨huser, hdate⟩

/-- Witness for the amended C8 at concrete inputs, with settings timezone
America/New_York (day-0 window [300, 1739]): the pull request created at
instant 100 — on UTC day 0 but before the settings window start — is
selected, and the theorem yields its author and UTC-date property; the pull
request with both timestamps at instant 1500 — inside the settings window
but on UTC day 1 — is excluded; the demo issue is selected likewise:
selection is UTC-date equality, not the settings window. -/
theorem activity_window_settings_tz_witness :
    mkPRItem "alice/prs" demoPR ∈
      get_pull_requests_for_date "America/New_York" 0 "alice" [prRepo] ∧
    ((mkPRItem "alice/prs" demoPR).author = "alice" ∧
      (dateOf (mkPRItem "alice/prs" demoPR).created_at = 0 ∨
       dateOf (mkPRItem "alice/prs" demoPR).updated_at = 0)) ∧
    demoPR.created_at < get_start_of_day "America/New_York" none 0 ∧
    get_start_of_day "America/New_York" none 0 ≤ latePR.created_at ∧
    latePR.created_at ≤ get_end_of_day "America/New_York" none 0 ∧
    mkPRItem "alice/prs" latePR ∉
      get_pull_requests_for_date "America/New_York" 0 "alice" [prRepo] ∧
    mkIssueItem "alice/issues" demoIssue ∈
      get_issues_for_date "America/New_York" 0 "alice" [issueRepo] ∧
    ((mkIssueItem "alice/issues" demoIssue).author = "alice" ∧
      (dateOf (mkIssueItem "alice/issues" demoIssue).created_at = 0 ∨
       dateOf (mkIssueItem "alice/issues" demoIssue).updated_at = 0)) :=
  ⟨by decide,
   (activity_window_settings_tz "America/New_York" 0 "alice" [prRepo]).2.1
     (mkPRItem "alice/prs" demoPR) (by decide),
   by decide, by decide, by decide, by decide,
   by decide,
   (activity_window_settings_tz "America/New_York" 0 "alice" [issueRepo]).2.2
     (mkIssueItem "alice/issues" demoIssue) (by decide)⟩

/-- C8 counterexample: the demo user's timezone is Africa/Douala and the
commit at instant -30 lies inside the Douala civil day 0 (window start -60),
yet with the configured settings timezone America/New_York the aggregation
returns no commit for day 0: the query window is the settings-timezone day,
not the user's day. -/
theorem activity_window_ignores_user_tz :
    demoUser.time_zone = "Africa/Douala" ∧
    doualaCommit.author_login = demoUser.github_username ∧
    get_start_of_day "America/New_York" (some "Africa/Douala") 0 ≤ doualaCommit.date ∧
    doualaCommit.date ≤ get_end_of_day "America/New_York" (some "Africa/Douala") 0 ∧
    get_commits_for_date "America/New_York" 0 "alice" [doualaRepo] = [] := by
  refine ⟨rfl, rfl, by decide, by decide, rfl⟩

/-- C6 counterexample: with an empty session view and a store already
holding the (7, day 0) record committed by another caller, `get_or_create`
surfaces the uniqueness violation as an error instead of recovering by
re-reading and returning the existing record. -/
theorem get_or_create_conflict_surfaces :
    DailyLog.get_or_create [] [newLog 1 7 0] 2 7 0 =
      .error { user_id := 7, log_date := 0 } := rfl

/-- C6 (amended): `get_or_create` returns the record its initial read finds;
when the read finds none it inserts a new blank record, and when another
caller created the record between the read and the commit the uniqueness
violation propagates to the caller as an error — there is no re-read
recovery. -/
theorem get_or_create_behaviour (dbRead dbCommit : List DailyLog)
    (nextId user_id : Nat) (log_date : Int) :
    (∀ l0, findLog dbRead user_id log_date = some l0 →
      DailyLog.get_or_create dbRead dbCommit nextId user_id log_date =
        .ok (l0, dbCommit)) ∧
    (findLog dbRead user_id log_date = none →
      (findLog dbCommit user_id log_date).isSome = true →
      DailyLog.get_or_create dbRead dbCommit nextId user_id log_date =
        .error ⟨user_id, log_date⟩) ∧
    (findLog dbRead user_id log_date = none →
      findLog dbCommit user_id log_date = none →
      DailyLog.get_or_create dbRead dbCommit nextId user_id log_date =
        .ok (newLog nextId user_id log_date,
          dbCommit ++ [newLog nextId user_id log_date])) := by
  refine ⟨?_, ?_, ?_⟩
  · intro l0 h
    unfold DailyLog.get_or_create
    rw [h]
  · intro h1 h2
    unfold DailyLog.get_or_create
    rw [h1]
    simp [h2]
  · intro h1 h2
    unfold DailyLog.get_or_create
    rw [h1]
    simp [h2]

/-- Witness for the amended C6: a concrete conflicting create surfaces the
violation. -/
theorem get_or_create_behaviour_witness :
    findLog ([] : List DailyLog) 8 3 = none ∧
    (findLog [newLog 5 8 3] 8 3).isSome = true ∧
    DailyLog.get_or_create [] [newLog 5 8 3] 9 8 3 =
      .error { user_id := 8, log_date := 3 } :=
  ⟨rfl, rfl, (get_or_create_behaviour [] [newLog 5 8 3] 9 8 3).2.1 rfl rfl⟩

/-- The `User` model defines no attribute named timezone: the dynamic lookup
the reply handler performs fails for every user row. -/
theorem getattr_timezone (u : User) : u.getattr "timezone" = none := rfl

/-- C3: a well-formed reply from a known sender is not filed under the
sender's current local date — the handler evaluates `user.timezone`, an
attribute the `User` model does not define (its column is `time_zone`), so
every such request fails with the generic 500 error and no record is
created or modified. -/
theorem reply_known_sender_crashes :
    User.get_by_email [demoUser] "alice@example.com" = some demoUser ∧
    demoUser.getattr "time_zone" = some "Africa/Douala" ∧
    demoUser.getattr "timezone" = none ∧
    handle_email_reply "UTC" 720 [demoUser] [] 1 payloadFromAlice =
      (.error (.internal "AttributeError: User object has no attribute timezone"), []) :=
  ⟨rfl, rfl, rfl, rfl⟩

/-- C10: a whitespace-only body from a known sender passes the emptiness
check (which runs on the raw body before stripping), so it is not rejected
as empty — but the request then dies on the same missing `user.timezone`
attribute with a 500 before the stripped body (the empty string) could be
stored. -/
theorem reply_whitespace_body_crashes :
    payloadWhitespace.text = " " ∧
    (optStrFalsy payloadWhitespace.from_email ||
      ((if payloadWhitespace.text != "" then payloadWhitespace.text
        else payloadWhitespace.html) == "")) = false ∧
    pyStrip " " = "" ∧
    handle_email_reply "UTC" 720 [demoUser] [] 1 payloadWhitespace =
      (.error (.internal "AttributeError: User object has no attribute timezone"), []) :=
  ⟨rfl, rfl, rfl, rfl⟩

/-- C9 counterexample: a reply from the address of a deactivated user is not
rejected with the user-not-found error — `get_by_email` ignores the active
flag, so the inactive sender resolves and the request proceeds past the
resolution step (it then dies on the timezone attribute instead). -/
theorem reply_inactive_sender_not_rejected :
    inactiveBob.is_active = false ∧
    User.get_active_users [inactiveBob] = [] ∧
    User.get_by_email [inactiveBob] "bob@example.com" = some inactiveBob ∧
    isUserNotFound (handle_email_reply "UTC" 720 [inactiveBob] [] 1 payloadFromBob) = false :=
  ⟨rfl, rfl, rfl, rfl⟩

/-- C9 (amended): the sender is resolved with `get_by_email`, which ignores
the active flag; only an address carried by no user row at all is rejected
with an explicit user-not-found error, and in that case no record is created
or modified (the store is returned unchanged); a sender matching any row,
active or not, is never rejected as user-not-found. -/
theorem reply_sender_resolution (settingsTz : String) (now : Int)
    (users : List User) (db : List DailyLog) (nextId : Nat)
    (payload : ReplyPayload) (sender : String)
    (hfrom : payload.from_email = some sender) (hs : (sender == "") = false)
    (hbody : ((if payload.text != "" then payload.text else payload.html) == "") = false) :
    (User.get_by_email users sender = none →
      handle_email_reply settingsTz now users db nextId payload =
        (.error (.notFound ("User not found: " ++ sender)), db)) ∧
    (∀ u, User.get_by_email users sender = some u →
      isUserNotFound (handle_email_reply settingsTz now users db nextId payload) = false) := by
  have hcondf : (optStrFalsy payload.from_email ||
      ((if payload.text != "" then payload.text else payload.html) == "")) = false := by
    rw [hfrom, hbody]
    rw [show optStrFalsy (some sender) = (sender == "") from rfl, hs]
    rfl
  have hcond : ¬ ((optStrFalsy payload.from_email ||
      ((if payload.text != "" then payload.text else payload.html) == "")) = true) := by
    rw [hcondf]
    exact Bool.false_ne_true
  constructor
  · intro hnone
    unfold handle_email_reply
    dsimp only
    rw [if_neg hcond, hfrom]
    dsimp only
    rw [hnone]
  · intro u hu
    unfold handle_email_reply
    dsimp only
    rw [if_neg hcond, hfrom]
    dsimp only
    rw [hu]
    dsimp only
    rw [getattr_timezone]
    rfl

/-- Witness for the amended C9: the unknown address is rejected with the
explicit user-not-found error and the store is untouched. -/
theorem reply_sender_resolution_witness :
    payloadUnknown.from_email = some "ghost@example.com" ∧
    handle_email_reply "UTC" 0 [] [] 1 payloadUnknown =
      (.error (.notFound "User not found: ghost@example.com"), []) :=
  ⟨rfl, (reply_sender_resolution "UTC" 0 [] [] 1 payloadUnknown
    "ghost@example.com" rfl rfl rfl).1 rfl⟩
